import Mathlib

/-!
Verification of `3d_virtual_app/parse_cameras.py`.

The Python script parses Agisoft camera XML data: it extracts a 4x4
transform per camera, splits it into a 3x3 rotation `R` and translation
`t`, computes the camera center `C = -R^T t`, and serialises all valid
cameras plus metadata to JSON.

Numeric model: the script computes with IEEE doubles; we embed the
arithmetic over `ℚ` (every decimal literal is an exact rational), so the
algebraic identities are stated exactly.  The only irrational quantity,
the Euclidean distances used in the statistics block, is modelled in `ℝ`.
String handling mirrors Python's `str.split()` / `float()` / `int()`
builtins on finite decimal literals.
-/

namespace ParseCameras

attribute [local semireducible] Rat.add Rat.mul Rat.inv Rat.sub Rat.ofScientific

abbrev Mat3 := Matrix (Fin 3) (Fin 3) ℚ
abbrev Mat4 := Matrix (Fin 4) (Fin 4) ℚ
abbrev Vec3 := Fin 3 → ℚ

/-! ### Python string builtins, modelled -/

/-- Accumulate a digit string into a natural number (most significant first). -/
def digitsVal (l : List Char) : ℕ :=
  l.foldl (fun a c => a * 10 + (c.toNat - 48)) 0

/-- A nonempty run of decimal digits. -/
def isDigits (l : List Char) : Bool :=
  !l.isEmpty && l.all Char.isDigit

/-- Strip surrounding whitespace from a character list. -/
def trimWs (l : List Char) : List Char :=
  ((l.dropWhile Char.isWhitespace).reverse.dropWhile Char.isWhitespace).reverse

/-- Tokeniser behind `pySplit`: walks the characters, accumulating the
current (reversed) token, emitting it at each whitespace run. -/
def splitWsAux : List Char → List Char → List String
  | [], acc => if acc.isEmpty then [] else [String.mk acc.reverse]
  | c :: cs, acc =>
    if c.isWhitespace then
      if acc.isEmpty then splitWsAux cs []
      else String.mk acc.reverse :: splitWsAux cs []
    else splitWsAux cs (c :: acc)

/-- Python's `str.split()` with no separator: split on runs of whitespace,
discarding empty tokens (leading/trailing whitespace included). -/
def pySplit (s : String) : List String :=
  splitWsAux s.data []

/-- Mantissa of a decimal literal, no sign and no exponent:
`digits`, `digits.digits`, `.digits` or `digits.` (at least one digit). -/
def parseMantissa (l : List Char) : Option ℚ :=
  match l.span (fun c => c != '.') with
  | (intPart, []) =>
    if isDigits intPart then some (digitsVal intPart) else none
  | (intPart, _dot :: fracPart) =>
    if intPart.all Char.isDigit && fracPart.all Char.isDigit
        && (!intPart.isEmpty || !fracPart.isEmpty) then
      some ((digitsVal intPart : ℚ) + (digitsVal fracPart : ℚ) / (10 : ℚ) ^ fracPart.length)
    else none

/-- Exponent part of a decimal literal: optional sign, then digits. -/
def parseExpPart (l : List Char) : Option ℤ :=
  match l with
  | '+' :: rest => if isDigits rest then some (digitsVal rest : ℤ) else none
  | '-' :: rest => if isDigits rest then some (-(digitsVal rest : ℤ)) else none
  | _ => if isDigits l then some (digitsVal l : ℤ) else none

/-- Unsigned decimal literal: mantissa with optional `e`/`E` exponent. -/
def parseUnsignedFloat (l : List Char) : Option ℚ :=
  match l.span (fun c => c != 'e' && c != 'E') with
  | (mant, []) => parseMantissa mant
  | (mant, _e :: expPart) => do
    let m ← parseMantissa mant
    let ex ← parseExpPart expPart
    pure (m * (10 : ℚ) ^ ex)

/-- Python's `float(token)` on finite decimal literals, valued in `ℚ`:
optional surrounding whitespace, optional sign, digits with optional
decimal point and optional exponent.  (Non-finite literals such as `inf`
and `nan` have no rational value and are outside this model.) -/
def pyFloat (s : String) : Option ℚ :=
  match trimWs s.data with
  | '+' :: rest => parseUnsignedFloat rest
  | '-' :: rest => (parseUnsignedFloat rest).map (fun q => -q)
  | l => parseUnsignedFloat l

/-- Python's `int(string)`: optional surrounding whitespace, optional
sign, then a nonempty digit run. -/
def pyInt (s : String) : Option ℤ :=
  match trimWs s.data with
  | '+' :: rest => if isDigits rest then some (digitsVal rest : ℤ) else none
  | '-' :: rest => if isDigits rest then some (-(digitsVal rest : ℤ)) else none
  | l => if isDigits l then some (digitsVal l : ℤ) else none

/-- Python's `int(x)` where `x` is an optional attribute: `int(None)`
raises `TypeError`. -/
def pyIntOpt : Option String → Option ℤ
  | none => none
  | some s => pyInt s

/-- Python's f-string rendering of an optional attribute (`None` prints
as `"None"`). -/
def pyStrOpt : Option String → String
  | none => "None"
  | some s => s

/-! ### Matrix Extractor (`parse_transform_matrix`) -/

/-- The errors `parse_transform_matrix` can raise: a `ValueError` from
`float(tok)` on a bad token, or the explicit
`ValueError(f"Expected 16 values, got {n}")`. -/
inductive TransformError : Type
  | notFloat (tok : String)
  | badCount (n : ℕ)
deriving DecidableEq, Repr

/-- Model of `[float(x) for x in tokens]`: parse each token in order, failing at
the first token `float` rejects. -/
def parseTokens : List String → Except TransformError (List ℚ)
  | [] => .ok []
  | tok :: rest =>
    match pyFloat tok with
    | none => .error (.notFloat tok)
    | some q =>
      match parseTokens rest with
      | .error e => .error e
      | .ok qs => .ok (q :: qs)

/-- Model of `values = [float(x) for x in transform_str.strip().split()]`. -/
def parseValues (s : String) : Except TransformError (List ℚ) :=
  parseTokens (pySplit s)

/-- Model of `parse_transform_matrix`: split the string on whitespace, parse each
token as a float, require exactly 16 values, reshape row-major into a
4x4 matrix, and return the top-left 3x3 block `R` together with the
top-right column `t` (rows 0-2 of column 3). -/
def parse_transform_matrix (s : String) : Except TransformError (Mat3 × Vec3) :=
  match parseValues s with
  | .error e => .error e
  | .ok values =>
    if h16 : values.length = 16 then
      .ok (Matrix.of fun i j : Fin 3 =>
             values.get ⟨4 * i.val + j.val, by have hi := i.isLt; have hj := j.isLt; omega⟩,
           fun i : Fin 3 =>
             values.get ⟨4 * i.val + 3, by have hi := i.isLt; omega⟩)
    else .error (.badCount values.length)

/-! ### Center Computer (`compute_camera_center`) -/

/-- Model of `compute_camera_center`: `C = -R.T @ t`. -/
def compute_camera_center (R : Mat3) (t : Vec3) : Vec3 :=
  (-R.transpose).mulVec t

/-! ### Camera Collector (`parse_camera_xml`) -/

/-- One `<camera>` element as found by `root.findall('.//camera')`: its
attributes (`None` when absent) and its `<transform>` child, which may be
absent (outer `none`) or present with possibly empty text (inner option,
matching `transform_elem.text`). -/
structure CameraElem : Type where
  id : Option String
  label : Option String
  enabled : Option String
  transform : Option (Option String)
deriving DecidableEq, Repr

/-- Serialisation `R.tolist()` of a 3x3 matrix: three rows of three numbers. -/
def mat3ToList (R : Mat3) : List (List ℚ) :=
  [[R 0 0, R 0 1, R 0 2], [R 1 0, R 1 1, R 1 2], [R 2 0, R 2 1, R 2 2]]

/-- Serialisation `t.tolist()` of a 3-vector. -/
def vec3ToList (t : Vec3) : List ℚ :=
  [t 0, t 1, t 2]

/-- Serialisation `.tolist()` of a 4x4 matrix: four rows of four numbers. -/
def mat4ToList (M : Mat4) : List (List ℚ) :=
  [[M 0 0, M 0 1, M 0 2, M 0 3], [M 1 0, M 1 1, M 1 2, M 1 3],
   [M 2 0, M 2 1, M 2 2, M 2 3], [M 3 0, M 3 1, M 3 2, M 3 3]]

/-- The `camera_data` dictionary built per camera: the numpy values are
serialised with `.tolist()`, so the fields are nested lists. -/
structure CameraRecord : Type where
  id : ℤ
  label : String
  rotation : List (List ℚ)
  translation : List ℚ
  center : List ℚ
  matrix : List (List ℚ)
deriving DecidableEq

/-- The value `np.vstack([np.hstack([R, t.reshape(-1, 1)]), [0, 0, 0, 1]])`:
the 4x4 homogeneous matrix with `R` top-left, `t` top-right, bottom row
`[0, 0, 0, 1]`. -/
def homMatrix (R : Mat3) (t : Vec3) : Mat4 :=
  Matrix.of fun i j : Fin 4 =>
    if hi : i.val < 3 then
      if hj : j.val < 3 then R ⟨i.val, hi⟩ ⟨j.val, hj⟩ else t ⟨i.val, hi⟩
    else
      if j.val < 3 then 0 else 1

/-- Assemble the `camera_data` dictionary from its parts. -/
def buildRecord (n : ℤ) (label : String) (R : Mat3) (t : Vec3) : CameraRecord :=
  { id := n
    label := label
    rotation := mat3ToList R
    translation := vec3ToList t
    center := vec3ToList (compute_camera_center R t)
    matrix := mat4ToList (homMatrix R t) }

/-- Reasons the `try` block of the per-camera loop fails. -/
inductive EntryError : Type
  | noText
  | transform (e : TransformError)
  | badId (id : Option String)
deriving DecidableEq, Repr

/-- Console messages the per-camera loop can emit: the
`"Warning: Camera {id} has no transform, skipping"` line and the
`"Error parsing camera {id}: {e}"` line. -/
inductive Event : Type
  | warnNoTransform (id : Option String)
  | errParse (id : Option String) (e : EntryError)
deriving DecidableEq, Repr

/-- The camera id an event's message names. -/
def Event.camId : Event → Option String
  | .warnNoTransform i => i
  | .errParse i _ => i

/-- The label the loop computes: `camera.get('label', f'Camera_{camera_id}')`. -/
def labelOf (e : CameraElem) : String :=
  e.label.getD ("Camera_" ++ pyStrOpt e.id)

/-- The `try` block of the loop body: parse the transform text (the text
is `None` for an empty element, making `.strip()` raise), compute the
center, and build the record — `int(camera_id)` is evaluated while
building the dictionary and raises on a missing or non-numeric id. -/
def processTransform (e : CameraElem) (text : Option String) :
    Option CameraRecord × List Event :=
  match text with
  | none => (none, [.errParse e.id .noText])
  | some s =>
    match parse_transform_matrix s with
    | .error err => (none, [.errParse e.id (.transform err)])
    | .ok (R, t) =>
      match pyIntOpt e.id with
      | none => (none, [.errParse e.id (.badId e.id)])
      | some n => (some (buildRecord n (labelOf e) R t), [])

/-- One iteration of the `for camera in root.findall('.//camera')` loop:
the record it appends (if any) and the console messages it prints. -/
def processEntry (e : CameraElem) : Option CameraRecord × List Event :=
  if e.enabled.getD "true" = "false" then (none, [])
  else
    match e.transform with
    | none => (none, [.warnNoTransform e.id])
    | some text => processTransform e text

/-- Model of `parse_camera_xml` on an already-parsed document, represented by the
document-order list of its `<camera>` elements: the accumulated records
and the emitted messages. -/
def parse_camera_xml : List CameraElem → List CameraRecord × List Event
  | [] => ([], [])
  | e :: rest =>
    let r := processEntry e
    let rst := parse_camera_xml rest
    (r.1.toList ++ rst.1, r.2 ++ rst.2)

/-! ### Reporter / Serializer -/

/-- The `metadata` object of the output JSON. -/
structure Metadata : Type where
  total_cameras : ℕ
  description : String
  coordinate_system : String
deriving DecidableEq, Repr

/-- The `output_data` object `save_cameras_json` writes. -/
structure OutputDocument : Type where
  cameras : List CameraRecord
  metadata : Metadata
deriving DecidableEq

/-- Model of `save_cameras_json`: the JSON document written to the output file. -/
def save_cameras_json (cameras : List CameraRecord) : OutputDocument :=
  { cameras := cameras
    metadata :=
      { total_cameras := cameras.length
        description := "Camera poses for virtual tour navigation"
        coordinate_system := "Right-handed, Y-up (Three.js compatible)" } }

/-- The value `np.linalg.norm(centers[i] - centers[j])`: Euclidean distance
between two center triples. -/
noncomputable def euclidDist (a b : List ℚ) : ℝ :=
  Real.sqrt (((a.getD 0 0 - b.getD 0 0) ^ 2 + (a.getD 1 0 - b.getD 1 0) ^ 2 +
    (a.getD 2 0 - b.getD 2 0) ^ 2 : ℚ) : ℝ)

/-- The nested `for i / for j in range(i+1, ...)` loop collecting every
unordered pairwise distance once. -/
noncomputable def pairwiseDistances : List (List ℚ) → List ℝ
  | [] => []
  | c :: rest => rest.map (euclidDist c) ++ pairwiseDistances rest

/-- Minimum over a nonempty list (Python's `min(d)` on `first :: rest`). -/
noncomputable def listMin (x : ℝ) (xs : List ℝ) : ℝ := xs.foldl min x

/-- Maximum over a nonempty list (Python's `max(d)` on `first :: rest`). -/
noncomputable def listMax (x : ℝ) (xs : List ℝ) : ℝ := xs.foldl max x

/-- Minimum over a nonempty list of rationals. -/
def qMin (x : ℚ) (xs : List ℚ) : ℚ := xs.foldl min x

def qMax (x : ℚ) (xs : List ℚ) : ℚ := xs.foldl max x

/-- The figures `print_camera_stats` prints. -/
structure CameraStats : Type where
  num : ℕ
  xmin : ℚ
  xmax : ℚ
  ymin : ℚ
  ymax : ℚ
  zmin : ℚ
  zmax : ℚ
  sceneCenter : List ℚ
  spacing : Option (ℝ × ℝ × ℝ)

/-- Model of `print_camera_stats`: prints nothing on an empty list (early
return); otherwise reports componentwise bounds and mean of the centers
and, only when the pairwise-distance list is nonempty, its
min/max/mean. -/
noncomputable def print_camera_stats (cameras : List CameraRecord) : Option CameraStats :=
  match cameras with
  | [] => none
  | cam :: rest =>
    let centers := cam.center :: rest.map (·.center)
    let coord := fun (c : List ℚ) (k : ℕ) => c.getD k 0
    let mean := fun (k : ℕ) => (centers.map (fun c => coord c k)).sum / centers.length
    let dists := pairwiseDistances centers
    some
      { num := centers.length
        xmin := qMin (coord cam.center 0) (rest.map (fun c => coord c.center 0))
        xmax := qMax (coord cam.center 0) (rest.map (fun c => coord c.center 0))
        ymin := qMin (coord cam.center 1) (rest.map (fun c => coord c.center 1))
        ymax := qMax (coord cam.center 1) (rest.map (fun c => coord c.center 1))
        zmin := qMin (coord cam.center 2) (rest.map (fun c => coord c.center 2))
        zmax := qMax (coord cam.center 2) (rest.map (fun c => coord c.center 2))
        sceneCenter := [mean 0, mean 1, mean 2]
        spacing :=
          match dists with
          | [] => none
          | d :: ds => some (listMin d ds, listMax d ds, (d :: ds).sum / (d :: ds).length) }

/-! ### `main`: command line, exit code, file side effects -/

/-- What opening and parsing the input file can yield: the file is
missing (`FileNotFoundError`), the document is not well-formed XML
(`ET.ParseError`), or it parses to a document whose `<camera>` elements
are the given list. -/
inductive InputDoc : Type
  | notFound
  | unparseable
  | doc (entries : List CameraElem)
deriving DecidableEq

/-- The observable outcome of a run: the process exit code and the
output document written (if any). -/
structure RunResult : Type where
  exitCode : ℕ
  written : Option OutputDocument
deriving DecidableEq

/-- Model of `main`, over the argument vector (`sys.argv`, program name included)
and the result of reading the input file: `sys.exit(1)` on a missing
argument; `FileNotFoundError` and `ET.ParseError` are caught and exit 1;
zero parsed cameras prints an error and exits 1 before any write;
otherwise stats are printed, the output is written and the process ends
with code 0. -/
def main_run (argv : List String) (input : InputDoc) : RunResult :=
  if argv.length < 2 then { exitCode := 1, written := none }
  else
    match input with
    | .notFound => { exitCode := 1, written := none }
    | .unparseable => { exitCode := 1, written := none }
    | .doc entries =>
      let cameras := (parse_camera_xml entries).1
      if cameras.isEmpty then { exitCode := 1, written := none }
      else { exitCode := 0, written := some (save_cameras_json cameras) }

/-! ### Supporting lemmas -/

instance {ε α : Type} [DecidableEq ε] [DecidableEq α] : DecidableEq (Except ε α) := fun x y =>
  match x, y with
  | .error a, .error b =>
    if h : a = b then .isTrue (by rw [h]) else .isFalse (by intro hc; cases hc; exact h rfl)
  | .error _, .ok _ => .isFalse (by intro hc; cases hc)
  | .ok _, .error _ => .isFalse (by intro hc; cases hc)
  | .ok a, .ok b =>
    if h : a = b then .isTrue (by rw [h]) else .isFalse (by intro hc; cases hc; exact h rfl)

theorem parseTokens_error_iff (ts : List String) :
    (∃ e, parseTokens ts = .error e) ↔ ∃ tok ∈ ts, pyFloat tok = none := by
  induction ts with
  | nil => simp [parseTokens]
  | cons tok rest ih =>
    simp only [parseTokens]
    cases hf : pyFloat tok with
    | none => simp [hf]
    | some q =>
      cases hr : parseTokens rest with
      | error e =>
        simp only [List.mem_cons]
        constructor
        · intro _
          have ⟨t, ht, htn⟩ := ih.mp ⟨e, hr⟩
          exact ⟨t, Or.inr ht, htn⟩
        · intro _; exact ⟨e, rfl⟩
      | ok qs =>
        simp only [List.mem_cons]
        constructor
        · rintro ⟨e, he⟩; cases he
        · rintro ⟨t, ht | ht, htn⟩
          · rw [ht] at htn; rw [hf] at htn; cases htn
          · have ⟨e, he⟩ := ih.mpr ⟨t, ht, htn⟩
            rw [he] at hr; cases hr

theorem parseTokens_ok_eq {ts : List String} {v : List ℚ}
    (h : parseTokens ts = .ok v) :
    v = ts.filterMap pyFloat ∧ v.length = ts.length := by
  induction ts generalizing v with
  | nil => cases h; simp
  | cons tok rest ih =>
    simp only [parseTokens] at h
    cases hf : pyFloat tok with
    | none => rw [hf] at h; cases h
    | some q =>
      rw [hf] at h
      cases hr : parseTokens rest with
      | error e => rw [hr] at h; cases h
      | ok qs =>
        rw [hr] at h
        cases h
        have ⟨h1, h2⟩ := ih hr
        simp [List.filterMap_cons, hf, ← h1, h2]

theorem parseTokens_ok_of_all {ts : List String}
    (h : ∀ tok ∈ ts, (pyFloat tok).isSome) :
    parseTokens ts = .ok (ts.filterMap pyFloat) := by
  induction ts with
  | nil => simp [parseTokens]
  | cons tok rest ih =>
    have htok := h tok (List.mem_cons_self tok rest)
    cases hf : pyFloat tok with
    | none => rw [hf] at htok; cases htok
    | some q =>
      have := ih (fun t ht => h t (List.mem_cons_of_mem tok ht))
      simp [parseTokens, hf, this, List.filterMap_cons]

theorem parse_camera_xml_append (xs ys : List CameraElem) :
    parse_camera_xml (xs ++ ys) =
      ((parse_camera_xml xs).1 ++ (parse_camera_xml ys).1,
       (parse_camera_xml xs).2 ++ (parse_camera_xml ys).2) := by
  induction xs with
  | nil => simp [parse_camera_xml]
  | cons e rest ih => simp [parse_camera_xml, ih]

theorem parse_camera_xml_fst (es : List CameraElem) :
    (parse_camera_xml es).1 = es.filterMap (fun e => (processEntry e).1) := by
  induction es with
  | nil => simp [parse_camera_xml]
  | cons e rest ih =>
    simp only [parse_camera_xml, List.filterMap_cons]
    cases h : (processEntry e).1 with
    | none => simp [h, ih]
    | some r => simp [h, ih]

theorem processEntry_some {e : CameraElem} {r : CameraRecord}
    (h : (processEntry e).1 = some r) :
    ∃ s R t n, e.transform = some (some s) ∧ parse_transform_matrix s = .ok (R, t) ∧
      pyIntOpt e.id = some n ∧ r = buildRecord n (labelOf e) R t := by
  unfold processEntry at h
  by_cases hen : e.enabled.getD "true" = "false"
  · rw [if_pos hen] at h; cases h
  · rw [if_neg hen] at h
    cases ht : e.transform with
    | none => rw [ht] at h; cases h
    | some text =>
      rw [ht] at h
      have h' : (processTransform e text).1 = some r := h
      cases text with
      | none => simp only [processTransform] at h'; cases h'
      | some s =>
        cases hp : parse_transform_matrix s with
        | error err => simp only [processTransform, hp] at h'; cases h'
        | ok Rt =>
          obtain ⟨R, t⟩ := Rt
          cases hn : pyIntOpt e.id with
          | none => simp only [processTransform, hp, hn] at h'; cases h'
          | some n =>
            simp only [processTransform, hp, hn, Option.some.injEq] at h'
            exact ⟨s, R, t, n, rfl, by rw [hp], rfl, h'.symm⟩

theorem compute_camera_center_apply (R : Mat3) (t : Vec3) (i : Fin 3) :
    compute_camera_center R t i = -∑ j, R j i * t j := by
  simp only [compute_camera_center, Matrix.mulVec, Matrix.dotProduct, Matrix.neg_apply,
    Matrix.transpose_apply, Fin.sum_univ_three]
  ring

theorem mat4ToList_homMatrix (R : Mat3) (t : Vec3) :
    mat4ToList (homMatrix R t) =
      [[R 0 0, R 0 1, R 0 2, t 0], [R 1 0, R 1 1, R 1 2, t 1],
       [R 2 0, R 2 1, R 2 2, t 2], [0, 0, 0, 1]] := rfl

theorem buildRecord_center (n : ℤ) (label : String) (R : Mat3) (t : Vec3) (i : Fin 3) :
    (buildRecord n label R t).center.getD i.val 0 = -∑ j, R j i * t j := by
  fin_cases i <;> simp [buildRecord, vec3ToList, compute_camera_center_apply]

theorem homMatrix_topLeft (R : Mat3) (t : Vec3) (i j : Fin 3) :
    homMatrix R t i.castSucc j.castSucc = R i j := by
  have hi : (i.castSucc : ℕ) < 3 := by simp [Fin.coe_castSucc, i.isLt]
  have hj : (j.castSucc : ℕ) < 3 := by simp [Fin.coe_castSucc, j.isLt]
  simp [homMatrix, hi, hj, Fin.coe_castSucc]

theorem homMatrix_topRight (R : Mat3) (t : Vec3) (i : Fin 3) :
    homMatrix R t i.castSucc 3 = t i := by
  have hi : (i.castSucc : ℕ) < 3 := by simp [Fin.coe_castSucc, i.isLt]
  have h3 : ¬((3 : Fin 4).val < 3) := by decide
  simp [homMatrix, hi, h3, Fin.coe_castSucc]

theorem homMatrix_bottom (R : Mat3) (t : Vec3) (j : Fin 4) :
    homMatrix R t 3 j = if j.val < 3 then 0 else 1 := by
  have h3 : ¬((3 : Fin 4).val < 3) := by decide
  simp [homMatrix, h3]

theorem filterMap_length_of_all {ts : List String}
    (hall : ∀ tok ∈ ts, (pyFloat tok).isSome) :
    (ts.filterMap pyFloat).length = ts.length :=
  (parseTokens_ok_eq (parseTokens_ok_of_all hall)).2

theorem ptm_error_of_parseValues {s : String} {e : TransformError}
    (h : parseValues s = .error e) : parse_transform_matrix s = .error e := by
  simp only [parse_transform_matrix, h]

theorem ptm_badCount {s : String} {v : List ℚ}
    (hv : parseValues s = .ok v) (h16 : v.length ≠ 16) :
    parse_transform_matrix s = .error (.badCount v.length) := by
  simp only [parse_transform_matrix, hv]
  rw [dif_neg h16]

theorem ptm_ok_getD {s : String} {R : Mat3} {t : Vec3}
    (hok : parse_transform_matrix s = .ok (R, t)) :
    (∀ tok ∈ pySplit s, (pyFloat tok).isSome) ∧ (pySplit s).length = 16 ∧
    (∀ i j : Fin 3, R i j = ((pySplit s).filterMap pyFloat).getD (4 * i.val + j.val) 0) ∧
    (∀ i : Fin 3, t i = ((pySplit s).filterMap pyFloat).getD (4 * i.val + 3) 0) := by
  cases hv : parseValues s with
  | error e =>
    rw [ptm_error_of_parseValues hv] at hok; cases hok
  | ok v =>
    simp only [parse_transform_matrix, hv] at hok
    by_cases h16 : v.length = 16
    · rw [dif_pos h16] at hok
      obtain ⟨hveq, hvlen⟩ := parseTokens_ok_eq hv
      have hall : ∀ tok ∈ pySplit s, (pyFloat tok).isSome := by
        intro tok htok
        by_contra hne
        have hnone : pyFloat tok = none := Option.not_isSome_iff_eq_none.mp hne
        obtain ⟨e, he⟩ := (parseTokens_error_iff (pySplit s)).mpr ⟨tok, htok, hnone⟩
        have hv2 : parseTokens (pySplit s) = .ok v := hv
        rw [he] at hv2; cases hv2
      have hlen : (pySplit s).length = 16 := by rw [← hvlen]; exact h16
      injection hok with h1
      have hR := congrArg Prod.fst h1
      have ht := congrArg Prod.snd h1
      simp only at hR ht
      refine ⟨hall, hlen, ?_, ?_⟩
      · intro i j
        rw [← hR]
        have hb : 4 * i.val + j.val < v.length := by
          have hi := i.isLt; have hj := j.isLt; omega
        rw [← hveq, List.getD_eq_getElem _ _ hb]
        simp [Matrix.of_apply, List.get_eq_getElem]
      · intro i
        rw [← ht]
        have hb : 4 * i.val + 3 < v.length := by have hi := i.isLt; omega
        rw [← hveq, List.getD_eq_getElem _ _ hb]
        simp [List.get_eq_getElem]
    · rw [dif_neg h16] at hok; cases hok

theorem ptm_ok_of_valid {s : String}
    (hall : ∀ tok ∈ pySplit s, (pyFloat tok).isSome)
    (hlen : (pySplit s).length = 16) :
    ∃ R t, parse_transform_matrix s = .ok (R, t) := by
  have hv : parseValues s = .ok ((pySplit s).filterMap pyFloat) :=
    parseTokens_ok_of_all hall
  have h16 : ((pySplit s).filterMap pyFloat).length = 16 := by
    rw [filterMap_length_of_all hall]; exact hlen
  simp only [parse_transform_matrix, hv]
  rw [dif_pos h16]
  exact ⟨_, _, rfl⟩

/-! ### Claims -/

/-- C1:  For every 3x3 rotation matrix `R` and 3-vector `t`, the center
computed by `compute_camera_center` equals `-Rᵀt` (the matrix-vector
product of the negated transpose of `R` with `t`); in particular, for the
identity rotation and translation `(1,2,3)` the computed center is
`(-1,-2,-3)`. -/
theorem compute_camera_center_spec :
    (∀ (R : Mat3) (t : Vec3) (i : Fin 3),
        compute_camera_center R t i = -∑ j, R j i * t j) ∧
    compute_camera_center 1 ![1, 2, 3] = ![-1, -2, -3] :=
  ⟨compute_camera_center_apply, by decide⟩

/-- C3:  For every input string, `parse_transform_matrix` fails iff the
whitespace-split token count is not 16 (with the error carrying the
actual count) or some token is not parseable as a float; otherwise it
returns the top-left 3x3 submatrix of the row-major 4x4 arrangement as
rotation and the entries at row indices 0-2, column index 3 as
translation. -/
theorem parse_transform_matrix_contract (s : String) :
    ((∃ e, parse_transform_matrix s = .error e) ↔
      ((pySplit s).length ≠ 16 ∨ ∃ tok ∈ pySplit s, pyFloat tok = none)) ∧
    ((∀ tok ∈ pySplit s, (pyFloat tok).isSome) → (pySplit s).length ≠ 16 →
      parse_transform_matrix s = .error (.badCount (pySplit s).length)) ∧
    (∀ R t, parse_transform_matrix s = .ok (R, t) →
      (∀ i j : Fin 3, R i j = ((pySplit s).filterMap pyFloat).getD (4 * i.val + j.val) 0) ∧
      (∀ i : Fin 3, t i = ((pySplit s).filterMap pyFloat).getD (4 * i.val + 3) 0)) := by
  have hbad : (∀ tok ∈ pySplit s, (pyFloat tok).isSome) → (pySplit s).length ≠ 16 →
      parse_transform_matrix s = .error (.badCount (pySplit s).length) := by
    intro hall hlen
    have hv : parseValues s = .ok ((pySplit s).filterMap pyFloat) :=
      parseTokens_ok_of_all hall
    have := ptm_badCount hv (by rw [filterMap_length_of_all hall]; exact hlen)
    rwa [filterMap_length_of_all hall] at this
  refine ⟨?_, hbad, ?_⟩
  · constructor
    · rintro ⟨e, he⟩
      by_contra hc
      push_neg at hc
      obtain ⟨hlen, hfl⟩ := hc
      have hall : ∀ tok ∈ pySplit s, (pyFloat tok).isSome := by
        intro tok htok
        exact Option.isSome_iff_ne_none.mpr (hfl tok htok)
      obtain ⟨R, t, hok⟩ := ptm_ok_of_valid hall hlen
      rw [hok] at he; cases he
    · intro hc
      by_cases hall : ∀ tok ∈ pySplit s, (pyFloat tok).isSome
      · have hlen : (pySplit s).length ≠ 16 := by
          rcases hc with hc | ⟨tok, htok, hnone⟩
          · exact hc
          · have := hall tok htok; rw [hnone] at this; cases this
        exact ⟨_, hbad hall hlen⟩
      · push_neg at hall
        obtain ⟨tok, htok, hne⟩ := hall
        have hnone : pyFloat tok = none := Option.not_isSome_iff_eq_none.mp hne
        obtain ⟨e, he⟩ := (parseTokens_error_iff (pySplit s)).mpr ⟨tok, htok, hnone⟩
        exact ⟨e, ptm_error_of_parseValues he⟩
  · intro R t hok
    exact (ptm_ok_getD hok).2.2

/-- Witness for C3: on `"1 2 3"` the extractor fails with the count
error carrying the actual count 3. -/
theorem parse_transform_matrix_contract_witness :
    parse_transform_matrix "1 2 3" = .error (.badCount (pySplit "1 2 3").length) :=
  (parse_transform_matrix_contract "1 2 3").2.1 (by decide) (by decide)

/-- The row-major 4x4 arrangement of a 16-value list, serialised as four
rows of four numbers (the "original input matrix" of the round-trip
law). -/
def reshape4List (v : List ℚ) : List (List ℚ) :=
  [[v.getD 0 0, v.getD 1 0, v.getD 2 0, v.getD 3 0],
   [v.getD 4 0, v.getD 5 0, v.getD 6 0, v.getD 7 0],
   [v.getD 8 0, v.getD 9 0, v.getD 10 0, v.getD 11 0],
   [v.getD 12 0, v.getD 13 0, v.getD 14 0, v.getD 15 0]]

/-- A 16-token transform whose bottom row is not `[0,0,0,1]`. -/
def cexStr : String := "1 0 0 0 0 1 0 0 0 0 1 0 5 6 7 8"

def cexEntry : CameraElem :=
  { id := some "0", label := none, enabled := none, transform := some (some cexStr) }

/-- A well-formed homogeneous transform: identity rotation, translation
`(1,2,3)`, bottom row `[0,0,0,1]`. -/
def gstr : String := "1 0 0 1 0 1 0 2 0 0 1 3 0 0 0 1"

def goodEntry : CameraElem :=
  { id := some "7", label := none, enabled := none, transform := some (some gstr) }

def goodR : Mat3 := Matrix.of ![![1, 0, 0], ![0, 1, 0], ![0, 0, 1]]

def goodT : Vec3 := ![1, 2, 3]

def goodRecord : CameraRecord := buildRecord 7 "Camera_7" goodR goodT

/-- C2 counterexample: The round-trip law fails as stated: on a
16-token transform whose last row is `5 6 7 8`, the reconstructed
`matrix` (bottom row forced to `[0,0,0,1]`) differs from the original
input matrix. -/
theorem matrix_roundtrip_counterexample :
    (pySplit cexStr).length = 16 ∧
    ((pySplit cexStr).filterMap pyFloat).length = 16 ∧
    ((processEntry cexEntry).1.map CameraRecord.matrix).isSome ∧
    (processEntry cexEntry).1.map CameraRecord.matrix ≠
      some (reshape4List ((pySplit cexStr).filterMap pyFloat)) :=
  ⟨by decide, by decide, by decide, by decide⟩

/-- C2 amended: For every camera entry whose transform string has 16
parseable tokens and whose last four values are `0, 0, 0, 1`, the 4x4
`matrix` field of the resulting CameraRecord equals the original input
matrix element-for-element. -/
theorem matrix_roundtrip_amended (e : CameraElem) (s : String) (r : CameraRecord)
    (hs : e.transform = some (some s))
    (hr : (processEntry e).1 = some r)
    (hlast : ((pySplit s).filterMap pyFloat).drop 12 = [0, 0, 0, 1]) :
    r.matrix = reshape4List ((pySplit s).filterMap pyFloat) := by
  obtain ⟨s', R, t, n, hs', hok, hn, hrec⟩ := processEntry_some hr
  rw [hs] at hs'
  injection hs' with hs''
  injection hs'' with hseq
  subst hseq
  obtain ⟨hall, hlen, hRget, htget⟩ := ptm_ok_getD hok
  have hmat : r.matrix =
      [[R 0 0, R 0 1, R 0 2, t 0], [R 1 0, R 1 1, R 1 2, t 1],
       [R 2 0, R 2 1, R 2 2, t 2], [0, 0, 0, 1]] := by rw [hrec]; rfl
  have hgd : ∀ k : ℕ, ((pySplit s).filterMap pyFloat).getD (12 + k) 0 =
      ([0, 0, 0, 1] : List ℚ).getD k 0 := by
    intro k
    rw [List.getD_eq_getElem?_getD, List.getD_eq_getElem?_getD, ← hlast,
      List.getElem?_drop]
  have h12 : ((pySplit s).filterMap pyFloat)[12]?.getD 0 = 0 := by simpa using hgd 0
  have h13 : ((pySplit s).filterMap pyFloat)[13]?.getD 0 = 0 := by simpa using hgd 1
  have h14 : ((pySplit s).filterMap pyFloat)[14]?.getD 0 = 0 := by simpa using hgd 2
  have h15 : ((pySplit s).filterMap pyFloat)[15]?.getD 0 = 1 := by simpa using hgd 3
  rw [hmat]
  simp [reshape4List, hRget 0 0, hRget 0 1, hRget 0 2, hRget 1 0, hRget 1 1,
    hRget 1 2, hRget 2 0, hRget 2 1, hRget 2 2, htget 0, htget 1, htget 2,
    h12, h13, h14, h15, Fin.val_zero, Fin.val_one, Fin.val_two]

/-- Witness for C2 (amended): the identity-rotation fixture with bottom
row `[0,0,0,1]` round-trips exactly. -/
theorem matrix_roundtrip_amended_witness :
    goodRecord.matrix = reshape4List ((pySplit gstr).filterMap pyFloat) :=
  matrix_roundtrip_amended goodEntry gstr goodRecord rfl (by decide) (by decide)

/-- C4:  Every CameraRecord in the serialized output satisfies
`center = -rotationᵀ · translation`, its 4x4 matrix's top-left 3x3
equals `rotation` and its top-right column equals `translation`; the
output's cameras appear in input-document order and
`metadata.total_cameras` equals the length of the cameras sequence. -/
theorem output_document_invariants (entries : List CameraElem) :
    (∀ r ∈ (save_cameras_json (parse_camera_xml entries).1).cameras,
        (∀ i : Fin 3, r.center.getD i.val 0 =
          -∑ j : Fin 3, (r.rotation.getD j.val []).getD i.val 0 *
            r.translation.getD j.val 0) ∧
        (∀ i j : Fin 3, (r.matrix.getD i.val []).getD j.val 0 =
          (r.rotation.getD i.val []).getD j.val 0) ∧
        (∀ i : Fin 3, (r.matrix.getD i.val []).getD 3 0 =
          r.translation.getD i.val 0)) ∧
    (save_cameras_json (parse_camera_xml entries).1).cameras =
      entries.filterMap (fun e => (processEntry e).1) ∧
    (save_cameras_json (parse_camera_xml entries).1).metadata.total_cameras =
      (save_cameras_json (parse_camera_xml entries).1).cameras.length := by
  refine ⟨?_, ?_, rfl⟩
  · intro r hr
    have hr2 : r ∈ (parse_camera_xml entries).1 := hr
    rw [parse_camera_xml_fst] at hr2
    obtain ⟨e, _, he⟩ := List.mem_filterMap.mp hr2
    obtain ⟨s, R, t, n, _, _, _, hrec⟩ := processEntry_some he
    subst hrec
    refine ⟨?_, ?_, ?_⟩
    · intro i
      fin_cases i <;>
        simp [buildRecord, mat3ToList, vec3ToList, compute_camera_center_apply,
          Fin.sum_univ_three]
    · intro i j
      fin_cases i <;> fin_cases j <;>
        simp [buildRecord, mat4ToList_homMatrix, mat3ToList]
    · intro i
      fin_cases i <;>
        simp [buildRecord, mat4ToList_homMatrix, vec3ToList]
  · show (parse_camera_xml entries).1 = _
    exact parse_camera_xml_fst entries

/-- Witness for C4: the output invariants evaluated on the concrete
one-camera document. -/
theorem output_document_invariants_witness :
    ∀ i : Fin 3, goodRecord.center.getD i.val 0 =
      -∑ j : Fin 3, (goodRecord.rotation.getD j.val []).getD i.val 0 *
        goodRecord.translation.getD j.val 0 :=
  ((output_document_invariants [goodEntry]).1 goodRecord (by decide)).1

/-- An entry with no `<transform>` child at all. -/
def badEntry : CameraElem :=
  { id := some "3", label := none, enabled := none, transform := none }

/-- C5:  For every input document that parses as a tree, each
per-entry failure (missing transform node → warning naming the camera
id; malformed transform or missing/non-numeric id → error message naming
the camera id) causes only that entry to be skipped; processing
continues with the remaining entries and the run never aborts because of
a single bad entry. -/
theorem per_entry_recovery (e : CameraElem) (pre post : List CameraElem)
    (hfail : (processEntry e).1 = none)
    (hen : e.enabled.getD "true" ≠ "false") :
    (parse_camera_xml (pre ++ e :: post)).1 = (parse_camera_xml (pre ++ post)).1 ∧
    (parse_camera_xml (pre ++ e :: post)).2 =
      (parse_camera_xml pre).2 ++ (processEntry e).2 ++ (parse_camera_xml post).2 ∧
    ∃ ev, (processEntry e).2 = [ev] ∧ ev.camId = e.id ∧
      (ev = Event.warnNoTransform e.id ↔ e.transform = none) := by
  have hsplit : pre ++ e :: post = (pre ++ [e]) ++ post := by simp
  refine ⟨?_, ?_, ?_⟩
  · rw [hsplit, parse_camera_xml_append, parse_camera_xml_append pre [e],
      parse_camera_xml_append pre post]
    simp [parse_camera_xml, hfail]
  · rw [hsplit, parse_camera_xml_append, parse_camera_xml_append pre [e]]
    simp [parse_camera_xml, List.append_assoc]
  · cases ht : e.transform with
    | none =>
      have h2 : (processEntry e).2 = [Event.warnNoTransform e.id] := by
        unfold processEntry
        rw [if_neg hen, ht]
      exact ⟨Event.warnNoTransform e.id, h2, rfl, by simp [ht]⟩
    | some text =>
      have h1 : (processEntry e).1 = (processTransform e text).1 := by
        unfold processEntry; rw [if_neg hen, ht]
      have h2 : (processEntry e).2 = (processTransform e text).2 := by
        unfold processEntry; rw [if_neg hen, ht]
      rw [h1] at hfail
      cases text with
      | none =>
        refine ⟨Event.errParse e.id .noText, ?_, rfl, by simp [ht]⟩
        rw [h2]; rfl
      | some s =>
        cases hp : parse_transform_matrix s with
        | error err =>
          refine ⟨Event.errParse e.id (.transform err), ?_, rfl, by simp [ht]⟩
          rw [h2]; simp only [processTransform, hp]
        | ok Rt =>
          obtain ⟨R, t⟩ := Rt
          cases hn : pyIntOpt e.id with
          | none =>
            refine ⟨Event.errParse e.id (.badId e.id), ?_, rfl, by simp [ht]⟩
            rw [h2]; simp only [processTransform, hp, hn]
          | some n =>
            exfalso
            simp [processTransform, hp, hn] at hfail

/-- Witness for C5: a transformless entry is skipped with a warning
naming its id, and the following good entry is still processed. -/
theorem per_entry_recovery_witness :
    (parse_camera_xml ([] ++ badEntry :: [goodEntry])).1 =
      (parse_camera_xml ([] ++ [goodEntry])).1 ∧
    (parse_camera_xml ([] ++ badEntry :: [goodEntry])).2 =
      (parse_camera_xml []).2 ++ (processEntry badEntry).2 ++
        (parse_camera_xml [goodEntry]).2 ∧
    ∃ ev, (processEntry badEntry).2 = [ev] ∧ ev.camId = badEntry.id ∧
      (ev = Event.warnNoTransform badEntry.id ↔ badEntry.transform = none) :=
  per_entry_recovery badEntry [] [goodEntry] (by decide) (by decide)

/-- C6:  The process exits with code 0 exactly when at least one
camera is parsed and the output file is written; it exits with code 1 on
a missing required argument, input file not found, an unparseable input
document, or zero cameras successfully parsed — and whenever it does not
exit 0 (including the zero-cameras and unparseable-document cases) no
output file is written at all. -/
theorem main_exit_codes (argv : List String) (input : InputDoc) :
    ((main_run argv input).exitCode = 0 ↔
      ∃ entries, input = .doc entries ∧ 2 ≤ argv.length ∧
        (parse_camera_xml entries).1 ≠ []) ∧
    ((main_run argv input).written.isSome ↔ (main_run argv input).exitCode = 0) ∧
    ((main_run argv input).exitCode = 0 ∨
      ((main_run argv input).exitCode = 1 ∧ (main_run argv input).written = none)) := by
  unfold main_run
  by_cases ha : argv.length < 2
  · rw [if_pos ha]
    refine ⟨?_, by simp, by simp⟩
    simp only [show (1 : ℕ) ≠ 0 by decide, false_iff]
    rintro ⟨entries, _, hlen, _⟩
    omega
  · rw [if_neg ha]
    cases input with
    | notFound =>
      refine ⟨?_, by simp, by simp⟩
      simp only [show (1 : ℕ) ≠ 0 by decide, false_iff]
      rintro ⟨entries, hdoc, _, _⟩
      cases hdoc
    | unparseable =>
      refine ⟨?_, by simp, by simp⟩
      simp only [show (1 : ℕ) ≠ 0 by decide, false_iff]
      rintro ⟨entries, hdoc, _, _⟩
      cases hdoc
    | doc entries =>
      dsimp only
      by_cases hc : (parse_camera_xml entries).1.isEmpty
      · rw [if_pos hc]
        have hnil : (parse_camera_xml entries).1 = [] := by
          simpa [List.isEmpty_iff] using hc
        refine ⟨?_, by simp, by simp⟩
        simp only [show (1 : ℕ) ≠ 0 by decide, false_iff]
        rintro ⟨es, hdoc, _, hne⟩
        cases hdoc
        exact hne hnil
      · rw [if_neg hc]
        have hne : (parse_camera_xml entries).1 ≠ [] := by
          simpa [List.isEmpty_iff] using hc
        refine ⟨?_, by simp, by simp⟩
        simp only [true_iff]
        exact ⟨entries, rfl, by omega, hne⟩

/-- Witness for C6: on a two-argument command line and a document with
one good camera, the run writes output exactly when it exits 0. -/
theorem main_exit_codes_witness :
    (main_run ["prog", "input.xml"] (InputDoc.doc [goodEntry])).written.isSome ↔
      (main_run ["prog", "input.xml"] (InputDoc.doc [goodEntry])).exitCode = 0 :=
  (main_exit_codes ["prog", "input.xml"] (InputDoc.doc [goodEntry])).2.1

/-- An entry disabled via `enabled="false"`, with an invalid transform. -/
def disabledEntry : CameraElem :=
  { id := some "9", label := none, enabled := some "false",
    transform := some (some "not a matrix") }

/-- C7:  A camera entry whose `enabled` attribute is exactly `"false"`
is skipped silently (no record, no message) regardless of its transform;
any other value of `enabled` (including absence) leaves the entry
processed normally. -/
theorem enabled_false_skip (e : CameraElem) (pre post : List CameraElem) :
    (e.enabled = some "false" →
      processEntry e = (none, []) ∧
      parse_camera_xml (pre ++ e :: post) = parse_camera_xml (pre ++ post)) ∧
    (e.enabled ≠ some "false" →
      processEntry e =
        match e.transform with
        | none => (none, [Event.warnNoTransform e.id])
        | some text => processTransform e text) := by
  constructor
  · intro hen
    have hskip : processEntry e = (none, []) := by
      unfold processEntry
      rw [hen]
      rfl
    refine ⟨hskip, ?_⟩
    have hsplit : pre ++ e :: post = (pre ++ [e]) ++ post := by simp
    rw [hsplit, parse_camera_xml_append, parse_camera_xml_append pre [e],
      parse_camera_xml_append pre post]
    simp [parse_camera_xml, hskip]
  · intro hen
    have hg : e.enabled.getD "true" ≠ "false" := by
      cases he : e.enabled with
      | none => simp
      | some v =>
        simp only [Option.getD_some]
        intro hv
        exact hen (by rw [he, hv])
    unfold processEntry
    rw [if_neg hg]

/-- Witness for C7: a disabled entry with a malformed transform is
dropped silently and the rest of the document is unaffected. -/
theorem enabled_false_skip_witness :
    processEntry disabledEntry = (none, []) ∧
    parse_camera_xml ([] ++ disabledEntry :: [goodEntry]) =
      parse_camera_xml ([] ++ [goodEntry]) :=
  (enabled_false_skip disabledEntry [] [goodEntry]).1 rfl

/-- C8:  For every camera entry with no `label` attribute, the
resulting CameraRecord's label is `"Camera_"` followed by the entry's
`id` attribute string. -/
theorem default_label (e : CameraElem) (s : String) (r : CameraRecord)
    (hlabel : e.label = none) (hid : e.id = some s)
    (hr : (processEntry e).1 = some r) :
    r.label = "Camera_" ++ s := by
  obtain ⟨s', R, t, n, _, _, _, hrec⟩ := processEntry_some hr
  rw [hrec]
  show labelOf e = "Camera_" ++ s
  unfold labelOf
  rw [hlabel, hid]
  rfl

/-- Witness for C8: an entry with no label and `id="7"` yields label
`"Camera_7"`. -/
theorem default_label_witness : goodRecord.label = "Camera_" ++ "7" :=
  default_label goodEntry "7" goodRecord rfl rfl (by decide)

/-- C9:  With exactly one camera the statistics computation completes
without raising any error (the componentwise min/max/mean over centers
are still computed) and the pairwise-distance set is empty, so no
min/max/mean distance figures are produced. -/
theorem single_camera_stats (c : CameraRecord) :
    ∃ s, print_camera_stats [c] = some s ∧ s.num = 1 ∧ s.spacing = none ∧
      s.xmin = c.center.getD 0 0 ∧ s.xmax = c.center.getD 0 0 ∧
      s.ymin = c.center.getD 1 0 ∧ s.ymax = c.center.getD 1 0 ∧
      s.zmin = c.center.getD 2 0 ∧ s.zmax = c.center.getD 2 0 ∧
      s.sceneCenter =
        [c.center.getD 0 0, c.center.getD 1 0, c.center.getD 2 0] := by
  refine ⟨_, rfl, rfl, rfl, rfl, rfl, rfl, rfl, rfl, rfl, ?_⟩
  show [(c.center.getD 0 0 + 0) / ((1 : ℕ) : ℚ),
        (c.center.getD 1 0 + 0) / ((1 : ℕ) : ℚ),
        (c.center.getD 2 0 + 0) / ((1 : ℕ) : ℚ)] = _
  norm_num

theorem getD_eq_of_take_eq {v w : List ℚ} (h : v.take 12 = w.take 12)
    (k : ℕ) (hk : k < 12) : v.getD k 0 = w.getD k 0 := by
  rw [List.getD_eq_getElem?_getD, List.getD_eq_getElem?_getD]
  have hv : v[k]? = (v.take 12)[k]? := by
    rw [List.getElem?_take]; simp [hk]
  have hw : w[k]? = (w.take 12)[k]? := by
    rw [List.getElem?_take]; simp [hk]
  rw [hv, hw, h]

theorem parseValues_ok_all {s : String} {v : List ℚ}
    (hv : parseValues s = .ok v) :
    ∀ tok ∈ pySplit s, (pyFloat tok).isSome := by
  intro tok htok
  by_contra hne
  have hnone : pyFloat tok = none := Option.not_isSome_iff_eq_none.mp hne
  obtain ⟨e, he⟩ := (parseTokens_error_iff (pySplit s)).mpr ⟨tok, htok, hnone⟩
  have hv2 : parseTokens (pySplit s) = .ok v := hv
  rw [he] at hv2; cases hv2

/-- C10:  Two 16-token transform strings that agree on their first 12
values and differ arbitrarily in the last 4 (the bottom row of the 4x4
matrix) yield identical CameraRecords when attached to otherwise
identical entries: rotation, translation, center and the serialized 4x4
matrix are all unaffected by the last four input values. -/
theorem bottom_row_irrelevant (e₁ e₂ : CameraElem) (s₁ s₂ : String)
    (v₁ v₂ : List ℚ)
    (ht₁ : e₁.transform = some (some s₁)) (ht₂ : e₂.transform = some (some s₂))
    (hid : e₁.id = e₂.id) (hlabel : e₁.label = e₂.label)
    (henab : e₁.enabled = e₂.enabled)
    (hv₁ : parseValues s₁ = .ok v₁) (hv₂ : parseValues s₂ = .ok v₂)
    (hlen₁ : v₁.length = 16) (hlen₂ : v₂.length = 16)
    (hfront : v₁.take 12 = v₂.take 12) :
    processEntry e₁ = processEntry e₂ := by
  have hall₁ := parseValues_ok_all hv₁
  have hall₂ := parseValues_ok_all hv₂
  obtain ⟨hfm₁, hfl₁⟩ := parseTokens_ok_eq hv₁
  obtain ⟨hfm₂, hfl₂⟩ := parseTokens_ok_eq hv₂
  obtain ⟨R₁, t₁, hok₁⟩ := ptm_ok_of_valid hall₁ (by omega)
  obtain ⟨R₂, t₂, hok₂⟩ := ptm_ok_of_valid hall₂ (by omega)
  obtain ⟨_, _, hR₁, ht₁g⟩ := ptm_ok_getD hok₁
  obtain ⟨_, _, hR₂, ht₂g⟩ := ptm_ok_getD hok₂
  have hR : R₁ = R₂ := by
    ext i j
    rw [hR₁ i j, hR₂ i j, ← hfm₁, ← hfm₂]
    exact getD_eq_of_take_eq hfront _ (by have := i.isLt; have := j.isLt; omega)
  have ht : t₁ = t₂ := by
    funext i
    rw [ht₁g i, ht₂g i, ← hfm₁, ← hfm₂]
    exact getD_eq_of_take_eq hfront _ (by have := i.isLt; omega)
  have hlab : labelOf e₁ = labelOf e₂ := by
    unfold labelOf; rw [hlabel, hid]
  unfold processEntry
  rw [henab, ht₁, ht₂]
  by_cases hcond : e₂.enabled.getD "true" = "false"
  · rw [if_pos hcond, if_pos hcond]
  · rw [if_neg hcond, if_neg hcond]
    show processTransform e₁ (some s₁) = processTransform e₂ (some s₂)
    simp only [processTransform, hok₁, hok₂]
    rw [hid, hR, ht, hlab]

/-- Transform agreeing with `gstr` on the first 12 values, bottom row
`9 9 9 9`. -/
def gstr2 : String := "1 0 0 1 0 1 0 2 0 0 1 3 9 9 9 9"

def goodEntry2 : CameraElem :=
  { id := some "7", label := none, enabled := none, transform := some (some gstr2) }

def gVals : List ℚ := [1, 0, 0, 1, 0, 1, 0, 2, 0, 0, 1, 3, 0, 0, 0, 1]

def gVals2 : List ℚ := [1, 0, 0, 1, 0, 1, 0, 2, 0, 0, 1, 3, 9, 9, 9, 9]

/-- Witness for C10: two entries whose transforms differ only in the
bottom row produce the same record. -/
theorem bottom_row_irrelevant_witness :
    processEntry goodEntry = processEntry goodEntry2 :=
  bottom_row_irrelevant goodEntry goodEntry2 gstr gstr2 gVals gVals2
    rfl rfl rfl rfl rfl (by decide) (by decide) (by decide) (by decide) (by decide)

end ParseCameras
